import Mathlib

/-!
Shallow embedding of the anchor-box geometry module of the
`gluon-detection` repository (file `src/anchors.py`).

The module manipulates `N × 4` arrays of box coordinates.  We model one
row of such an array as a `Box`: four rational numbers indexed `c0 … c3`,
exactly mirroring column indices `[:, 0] … [:, 3]` of the source arrays.
The source's floating-point scalars are modelled by `ℚ`; the two
transcendental primitives it uses (`np.sqrt` in `generate_anchors`,
`torch.log` in `calc_delta`) are passed in as explicit function
parameters, so every theorem below holds for every model of those
primitives that satisfies the stated hypotheses.
-/

namespace GluonDetection

/-- One row of an `N × 4` coordinate array: four rational scalars,
`c0 … c3` mirroring column indices `0 … 3` of the source arrays.
`generate_anchors` writes rows in `(y1, x1, y2, x2)` order, while
`calc_overlap` reads index 0/1/2/3 as `xmin/ymin/xmax/ymax`. -/
structure Box where
  c0 : ℚ
  c1 : ℚ
  c2 : ℚ
  c3 : ℚ
deriving DecidableEq

/-- A box is well formed when on each axis the second coordinate is at
least the first (spec §3: `coord2 >= coord1` on each axis). -/
def wellFormed (b : Box) : Prop := b.c0 ≤ b.c2 ∧ b.c1 ≤ b.c3

instance (b : Box) : Decidable (wellFormed b) := by
  unfold wellFormed; infer_instance

/-- Embedding of `np.arange(0, stop, stride)`: the multiples of `stride`
below `stop`, of which there are `⌈stop / stride⌉ = (stop + stride - 1) / stride`. -/
def arange (stop stride : ℕ) : List ℕ :=
  (List.range ((stop + stride - 1) / stride)).map (fun i => i * stride)

/-- Embedding of `AnchorGenerator.generate_anchors`.  `sqrt` models
`np.sqrt`.  The flattened `np.meshgrid(scales, ratios)` enumerates
`(scale, ratio)` pairs with the ratio index outer and the scale index
inner; the flattened shift grids enumerate `y` outer, `x` inner; the
final reshape nests shift positions outer and scale/ratio pairs inner.
Each row is `(cy - h/2, cx - w/2, cy + h/2, cx + w/2)` with
`h = scale / sqrt ratio` and `w = scale * sqrt ratio`. -/
def generate_anchors (sqrt : ℚ → ℚ) (fmap_shape : ℕ × ℕ)
    (fmap_downsampled_rate : ℚ) (scales ratioList : List ℚ)
    (anchor_stride : ℕ) : List Box :=
  let pairs := ratioList.flatMap (fun r => scales.map (fun s => (s, r)))
  let heights_widths := pairs.map (fun p => (p.1 / sqrt p.2, p.1 * sqrt p.2))
  let shifts_y := (arange fmap_shape.1 anchor_stride).map
    (fun i : ℕ => (i : ℚ) / fmap_downsampled_rate)
  let shifts_x := (arange fmap_shape.2 anchor_stride).map
    (fun j : ℕ => (j : ℚ) / fmap_downsampled_rate)
  let box_centers := shifts_y.flatMap (fun cy => shifts_x.map (fun cx => (cy, cx)))
  box_centers.flatMap (fun c => heights_widths.map (fun hw =>
    ⟨c.1 - 1/2 * hw.1, c.2 - 1/2 * hw.2, c.1 + 1/2 * hw.1, c.2 + 1/2 * hw.2⟩))

/-- The per-pair body of `calc_overlap`: intersection with the `+1`
pixel-inclusive convention, then `inter / (area_q + area_r - inter)`.
Index 0/1/2/3 is read as `xmin/ymin/xmax/ymax`, exactly as in the
source. -/
def iou (q r : Box) : ℚ :=
  let intersect_left := max q.c0 r.c0
  let intersect_top := max q.c1 r.c1
  let intersect_right := min q.c2 r.c2
  let intersect_bottom := min q.c3 r.c3
  let intersect_areas := max 0 (intersect_right - intersect_left + 1) *
    max 0 (intersect_bottom - intersect_top + 1)
  let query_areas := (q.c2 - q.c0 + 1) * (q.c3 - q.c1 + 1)
  let ref_areas := (r.c2 - r.c0 + 1) * (r.c3 - r.c1 + 1)
  intersect_areas / (query_areas + ref_areas - intersect_areas)

/-- Embedding of `calc_overlap`: the dense matrix whose entry `[i, j]`
is the IoU of query box `i` against reference box `j`. -/
def calc_overlap (query_boxes ref_boxes : List Box) : List (List ℚ) :=
  query_boxes.map (fun q => ref_boxes.map (fun r => iou q r))

/-- Entry `[i, j]` of a matrix represented as a list of rows. -/
def entry (M : List (List ℚ)) (i j : ℕ) : ℚ := (M.getD i []).getD j 0

/-- Elementwise scaling of a box, embedding `gt_boxes * fmap_downsampled_rate`. -/
def scaleBox (r : ℚ) (b : Box) : Box := ⟨b.c0 * r, b.c1 * r, b.c2 * r, b.c3 * r⟩

/-- Maximum of a list of rationals (0 on the empty list, which the
source never evaluates: `tensor.max(dim=1)` requires a non-empty
dimension). -/
def listMaxD : List ℚ → ℚ
  | [] => 0
  | x :: xs => xs.foldl max x

/-- Auxiliary scan for `argmaxFirst`: walks the tail keeping the first
index attaining the running maximum. -/
def argmaxAux : List ℚ → ℚ → ℕ → ℕ → ℕ
  | [], _, _, best => best
  | x :: xs, bv, i, best =>
    if bv < x then argmaxAux xs x (i + 1) i else argmaxAux xs bv (i + 1) best

/-- Index of the first maximal element, embedding `tensor.argmax`
(first-occurrence tie-break; 0 on the empty list, never evaluated by
the source). -/
def argmaxFirst : List ℚ → ℕ
  | [] => 0
  | x :: xs => argmaxAux xs x 1 0

/-- Column `j` of a matrix represented as a list of rows. -/
def column (M : List (List ℚ)) (j : ℕ) : List ℚ := M.map (fun row => row.getD j 0)

/-- Embedding of `torch.ones(n) * -1`: every anchor starts with label `-1`. -/
def matchInit (n : ℕ) : List ℤ := List.replicate n (-1)

/-- Embedding of the scatter `match[idx_closest_to_gt] = 1`. -/
def setOnes (m : List ℤ) (idxs : List ℕ) : List ℤ :=
  idxs.foldl (fun acc i => acc.set i 1) m

/-- Embedding of the masked write `match[max_ious_with_gt > match_thresh_hi] = 1`. -/
def matchStep2 (m : List ℤ) (maxIous : List ℚ) (hi : ℚ) : List ℤ :=
  (List.range m.length).map
    (fun i => if hi < maxIous.getD i 0 then (1 : ℤ) else m.getD i (-1))

/-- Embedding of the masked write `match[max_ious_with_gt < match_thresh_lo] = 0`,
which the source performs last. -/
def matchStep3 (m : List ℤ) (maxIous : List ℚ) (lo : ℚ) : List ℤ :=
  (List.range m.length).map
    (fun i => if maxIous.getD i 0 < lo then (0 : ℤ) else m.getD i (-1))

/-- The per-anchor label array of `calc_anchor_match` after its three
sequential writes (forced positives, high-IoU positives, then low-IoU
negatives last). -/
def matchLabels (anchors gt_boxes : List Box) (fmap_downsampled_rate : ℚ)
    (match_thresh_hi match_thresh_lo : ℚ) : List ℤ :=
  let gt := gt_boxes.map (scaleBox fmap_downsampled_rate)
  let overlaps := calc_overlap anchors gt
  let max_ious_with_gt := overlaps.map listMaxD
  let idx_closest_to_gt := (List.range gt.length).map
    (fun j => argmaxFirst (column overlaps j))
  matchStep3
    (matchStep2 (setOnes (matchInit anchors.length) idx_closest_to_gt)
      max_ious_with_gt match_thresh_hi)
    max_ious_with_gt match_thresh_lo

/-- Embedding of `calc_anchor_match`: scales the ground-truth boxes by
the downsample rate, computes the overlap matrix, and returns the
positive indices (label 1), negative indices (label 0) and, for every
anchor, its best-matching scaled ground-truth box. -/
def calc_anchor_match (anchors gt_boxes : List Box)
    (fmap_downsampled_rate match_thresh_hi match_thresh_lo : ℚ) :
    List ℕ × List ℕ × List Box :=
  let gt := gt_boxes.map (scaleBox fmap_downsampled_rate)
  let overlaps := calc_overlap anchors gt
  let assigned_gt_idx := overlaps.map argmaxFirst
  let assigned_gt_boxes := assigned_gt_idx.map (fun j => gt.getD j ⟨0, 0, 0, 0⟩)
  let matchv := matchLabels anchors gt_boxes fmap_downsampled_rate
    match_thresh_hi match_thresh_lo
  let pos_idx := (List.range anchors.length).filter
    (fun i => matchv.getD i (-1) == 1)
  let neg_idx := (List.range anchors.length).filter
    (fun i => matchv.getD i (-1) == 0)
  (pos_idx, neg_idx, assigned_gt_boxes)

/-- Row maximum of the overlap matrix used inside `calc_anchor_match`:
the best IoU of anchor `i` over all (scaled) ground-truth boxes. -/
def rowMaxIou (anchors gt_boxes : List Box) (fmap_downsampled_rate : ℚ)
    (i : ℕ) : ℚ :=
  listMaxD ((calc_overlap anchors (gt_boxes.map (scaleBox fmap_downsampled_rate))).getD i [])

/-- Column argmax of the overlap matrix used inside `calc_anchor_match`:
the first anchor index attaining the highest IoU with ground-truth box `j`. -/
def bestAnchorForGt (anchors gt_boxes : List Box) (fmap_downsampled_rate : ℚ)
    (j : ℕ) : ℕ :=
  argmaxFirst (column (calc_overlap anchors (gt_boxes.map (scaleBox fmap_downsampled_rate))) j)

/-- Embedding of `calc_delta`.  `log` models `torch.log`, and
`delta_std_dev` is the 4-element standard-deviation vector (one `Box`
row).  The source builds the four per-box columns, concatenates them
into one flat length-`4N` vector with `torch.cat`, reshapes it
row-major with `.view(*boxes.shape)` — so output row `i` is entries
`4i … 4i+3` of the concatenation — and divides each column by the
corresponding std-dev entry. -/
def calc_delta (log : ℚ → ℚ) (boxes ref_boxes : List Box)
    (delta_std_dev : Box) : List Box :=
  let zipped := boxes.zip ref_boxes
  let dxs := zipped.map (fun p =>
    let w := p.1.c2 - p.1.c0
    let center_x := p.1.c0 + 1/2 * w
    let ref_w := p.2.c2 - p.2.c0
    let ref_center_x := p.2.c0 + 1/2 * ref_w
    (ref_center_x - center_x) / w)
  let dys := zipped.map (fun p =>
    let h := p.1.c3 - p.1.c1
    let center_y := p.1.c1 + 1/2 * h
    let ref_h := p.2.c3 - p.2.c1
    let ref_center_y := p.2.c1 + 1/2 * ref_h
    (ref_center_y - center_y) / h)
  let lws := zipped.map (fun p => log ((p.2.c2 - p.2.c0) / (p.1.c2 - p.1.c0)))
  let lhs := zipped.map (fun p => log ((p.2.c3 - p.2.c1) / (p.1.c3 - p.1.c1)))
  let catted := dxs ++ dys ++ lws ++ lhs
  (List.range boxes.length).map (fun i =>
    ⟨catted.getD (4 * i) 0 / delta_std_dev.c0,
     catted.getD (4 * i + 1) 0 / delta_std_dev.c1,
     catted.getD (4 * i + 2) 0 / delta_std_dev.c2,
     catted.getD (4 * i + 3) 0 / delta_std_dev.c3⟩)

/-- The 16 anchors of the spec's concrete scenario: feature map `4 × 4`,
downsample rate 1, scale 4, aspect 1, stride 1, i.e. `4 × 4` boxes
centered on the grid cells `(cy, cx) ∈ {0..3}²` in `(y1, x1, y2, x2)`
order, cell `(2, 2)` at index 10. -/
def anchors4x4 : List Box :=
  [⟨-2, -2, 2, 2⟩, ⟨-2, -1, 2, 3⟩, ⟨-2, 0, 2, 4⟩, ⟨-2, 1, 2, 5⟩,
   ⟨-1, -2, 3, 2⟩, ⟨-1, -1, 3, 3⟩, ⟨-1, 0, 3, 4⟩, ⟨-1, 1, 3, 5⟩,
   ⟨0, -2, 4, 2⟩, ⟨0, -1, 4, 3⟩, ⟨0, 0, 4, 4⟩, ⟨0, 1, 4, 5⟩,
   ⟨1, -2, 5, 2⟩, ⟨1, -1, 5, 3⟩, ⟨1, 0, 5, 4⟩, ⟨1, 1, 5, 5⟩]

/-! ### General list lemmas -/

lemma length_flatMap_const {α β : Type} (l : List α) (f : α → List β) (k : ℕ)
    (h : ∀ x ∈ l, (f x).length = k) : (l.flatMap f).length = l.length * k := by
  induction l with
  | nil => simp
  | cons x xs ih =>
    simp only [List.flatMap_cons, List.length_append, List.length_cons]
    rw [h x (List.mem_cons_self x xs), ih (fun y hy => h y (List.mem_cons_of_mem x hy))]
    ring

lemma getElem?_flatMap_map {α β γ : Type} (l : List α) (m : List β) (g : α → β → γ)
    (a b : ℕ) (ha : a < l.length) (hb : b < m.length) :
    (l.flatMap (fun x => m.map (g x)))[a * m.length + b]? = some (g l[a] m[b]) := by
  induction l generalizing a with
  | nil => simp at ha
  | cons x xs ih =>
    rw [List.flatMap_cons]
    cases a with
    | zero =>
      rw [List.getElem?_append_left (by simpa using hb)]
      simp [List.getElem?_eq_getElem hb]
    | succ a' =>
      have ha' : a' < xs.length := by simpa using ha
      have hle : (List.map (g x) m).length ≤ (a' + 1) * m.length + b := by
        rw [List.length_map, Nat.succ_mul]; omega
      rw [List.getElem?_append_right hle]
      have hidx : (a' + 1) * m.length + b - (List.map (g x) m).length
          = a' * m.length + b := by
        rw [List.length_map, Nat.succ_mul]; omega
      rw [hidx, List.getElem_cons_succ]
      exact ih a' ha'

/-! ### Lemmas about arange -/

lemma arange_length (stop stride : ℕ) :
    (arange stop stride).length = (stop + stride - 1) / stride := by
  simp [arange]

lemma arange_getElem? (stop stride i : ℕ) (h : i < (stop + stride - 1) / stride) :
    (arange stop stride)[i]? = some (i * stride) := by
  simp [arange, List.getElem?_range (by simpa using h)]

/-! ### IoU lemmas -/

lemma iou_self (b : Box) (hb : wellFormed b) : iou b b = 1 := by
  obtain ⟨h1, h2⟩ := hb
  dsimp only [iou]
  rw [max_self, max_self, min_self, min_self]
  rw [max_eq_right (by linarith : (0 : ℚ) ≤ b.c2 - b.c0 + 1),
    max_eq_right (by linarith : (0 : ℚ) ≤ b.c3 - b.c1 + 1)]
  have hpos : 0 < (b.c2 - b.c0 + 1) * (b.c3 - b.c1 + 1) := by nlinarith
  have hsum : (b.c2 - b.c0 + 1) * (b.c3 - b.c1 + 1) + (b.c2 - b.c0 + 1) * (b.c3 - b.c1 + 1)
      - (b.c2 - b.c0 + 1) * (b.c3 - b.c1 + 1) = (b.c2 - b.c0 + 1) * (b.c3 - b.c1 + 1) := by
    ring
  rw [hsum, div_self hpos.ne']

lemma iou_bounds (q r : Box) (hq : wellFormed q) (hr : wellFormed r) :
    0 ≤ iou q r ∧ iou q r ≤ 1 := by
  obtain ⟨hq1, hq2⟩ := hq
  obtain ⟨hr1, hr2⟩ := hr
  dsimp only [iou]
  have hqa : 1 ≤ (q.c2 - q.c0 + 1) * (q.c3 - q.c1 + 1) := by nlinarith
  have hra : 1 ≤ (r.c2 - r.c0 + 1) * (r.c3 - r.c1 + 1) := by nlinarith
  have hAq : max 0 (min q.c2 r.c2 - max q.c0 r.c0 + 1) ≤ q.c2 - q.c0 + 1 :=
    max_le (by linarith) (by linarith [min_le_left q.c2 r.c2, le_max_left q.c0 r.c0])
  have hAr : max 0 (min q.c2 r.c2 - max q.c0 r.c0 + 1) ≤ r.c2 - r.c0 + 1 :=
    max_le (by linarith) (by linarith [min_le_right q.c2 r.c2, le_max_right q.c0 r.c0])
  have hBq : max 0 (min q.c3 r.c3 - max q.c1 r.c1 + 1) ≤ q.c3 - q.c1 + 1 :=
    max_le (by linarith) (by linarith [min_le_left q.c3 r.c3, le_max_left q.c1 r.c1])
  have hBr : max 0 (min q.c3 r.c3 - max q.c1 r.c1 + 1) ≤ r.c3 - r.c1 + 1 :=
    max_le (by linarith) (by linarith [min_le_right q.c3 r.c3, le_max_right q.c1 r.c1])
  have h0A : (0 : ℚ) ≤ max 0 (min q.c2 r.c2 - max q.c0 r.c0 + 1) := le_max_left 0 _
  have h0B : (0 : ℚ) ≤ max 0 (min q.c3 r.c3 - max q.c1 r.c1 + 1) := le_max_left 0 _
  have hIq : max 0 (min q.c2 r.c2 - max q.c0 r.c0 + 1) *
      max 0 (min q.c3 r.c3 - max q.c1 r.c1 + 1) ≤ (q.c2 - q.c0 + 1) * (q.c3 - q.c1 + 1) :=
    mul_le_mul hAq hBq h0B (by linarith)
  have hIr : max 0 (min q.c2 r.c2 - max q.c0 r.c0 + 1) *
      max 0 (min q.c3 r.c3 - max q.c1 r.c1 + 1) ≤ (r.c2 - r.c0 + 1) * (r.c3 - r.c1 + 1) :=
    mul_le_mul hAr hBr h0B (by linarith)
  have hden : 0 < (q.c2 - q.c0 + 1) * (q.c3 - q.c1 + 1) +
      (r.c2 - r.c0 + 1) * (r.c3 - r.c1 + 1) -
      max 0 (min q.c2 r.c2 - max q.c0 r.c0 + 1) *
        max 0 (min q.c3 r.c3 - max q.c1 r.c1 + 1) := by linarith
  refine ⟨div_nonneg (mul_nonneg h0A h0B) hden.le, ?_⟩
  rw [div_le_one hden]
  linarith

lemma iou_eq_zero_of_gap (q r : Box)
    (hsep : min q.c2 r.c2 - max q.c0 r.c0 + 1 ≤ 0 ∨
      min q.c3 r.c3 - max q.c1 r.c1 + 1 ≤ 0) :
    iou q r = 0 := by
  dsimp only [iou]
  rcases hsep with h | h
  · rw [max_eq_left h, zero_mul, zero_div]
  · rw [max_eq_left h, mul_zero, zero_div]

lemma entry_calc_overlap (query_boxes ref_boxes : List Box) (i j : ℕ) (q r : Box)
    (hq : query_boxes[i]? = some q) (hr : ref_boxes[j]? = some r) :
    entry (calc_overlap query_boxes ref_boxes) i j = iou q r := by
  obtain ⟨hi, hqi⟩ := List.getElem?_eq_some_iff.1 hq
  obtain ⟨hj, hrj⟩ := List.getElem?_eq_some_iff.1 hr
  simp [entry, calc_overlap, List.getD_eq_getElem?_getD,
    List.getElem?_eq_getElem, hi, hj, hqi, hrj]

/-! ### Claim theorems: overlap calculator -/

/-- Claim C3: `generate_anchors` on an `H × W` feature map with stride `s`
and `k = len(scales) * len(ratios)` scale/ratio pairs produces exactly
`⌈H / s⌉ * ⌈W / s⌉ * k` boxes (`Nat.ceilDiv`, i.e. `(H + s - 1) / s`). -/
theorem generate_anchors_length (sqrt : ℚ → ℚ) (H W : ℕ) (rate : ℚ)
    (scales ratioList : List ℚ) (stride : ℕ) :
    (generate_anchors sqrt (H, W) rate scales ratioList stride).length =
      (H + stride - 1) / stride * ((W + stride - 1) / stride) *
        (scales.length * ratioList.length) := by
  dsimp only [generate_anchors]
  rw [length_flatMap_const _ _ (ratioList.length * scales.length)
    (by
      intro c _
      rw [List.length_map, List.length_map]
      exact length_flatMap_const _ _ scales.length
        (by intro r _; exact List.length_map _ _))]
  rw [length_flatMap_const _ _ ((W + stride - 1) / stride)
    (by intro cy _; rw [List.length_map, List.length_map, arange_length])]
  rw [List.length_map, arange_length]
  ring

/-- Claim C5: for any well-formed box (second coordinate at least the
first on each axis), `calc_overlap` of the singleton set against itself
is the `1 × 1` matrix `[[1]]`: self-IoU equals 1. -/
theorem calc_overlap_self (b : Box) (hb : wellFormed b) :
    calc_overlap [b] [b] = [[1]] := by
  simp [calc_overlap, iou_self b hb]

/-- Witness for C5 at the concrete box `(0, 0, 1, 1)`. -/
theorem calc_overlap_self_witness :
    calc_overlap [⟨0, 0, 1, 1⟩] [⟨0, 0, 1, 1⟩] = [[1]] :=
  calc_overlap_self ⟨0, 0, 1, 1⟩ (by constructor <;> norm_num)

/-- Claim C6: for integer-coordinate (pixel-grid) well-formed boxes whose
pixel rectangles are disjoint on at least one axis, the corresponding
entry of `calc_overlap` is 0.  (Disjointness of the inclusive pixel
rectangles `[x1, x2] × [y1, y2]` means a strict coordinate separation on
some axis, which under the source's `+1` pixel-inclusive area convention
makes the intersection area vanish.) -/
theorem calc_overlap_disjoint_zero (query_boxes ref_boxes : List Box) (i j : ℕ)
    (qx1 qy1 qx2 qy2 rx1 ry1 rx2 ry2 : ℤ)
    (hq : query_boxes[i]? = some ⟨(qx1 : ℚ), (qy1 : ℚ), (qx2 : ℚ), (qy2 : ℚ)⟩)
    (hr : ref_boxes[j]? = some ⟨(rx1 : ℚ), (ry1 : ℚ), (rx2 : ℚ), (ry2 : ℚ)⟩)
    (_hwq : qx1 ≤ qx2 ∧ qy1 ≤ qy2) (_hwr : rx1 ≤ rx2 ∧ ry1 ≤ ry2)
    (hdisj : qx2 < rx1 ∨ rx2 < qx1 ∨ qy2 < ry1 ∨ ry2 < qy1) :
    entry (calc_overlap query_boxes ref_boxes) i j = 0 := by
  rw [entry_calc_overlap _ _ _ _ _ _ hq hr]
  apply iou_eq_zero_of_gap
  rcases hdisj with h | h | h | h
  · left
    have hc : (qx2 : ℚ) + 1 ≤ (rx1 : ℚ) := by exact_mod_cast h
    simp only []
    have h1 := min_le_left (qx2 : ℚ) (rx2 : ℚ)
    have h2 := le_max_right (qx1 : ℚ) (rx1 : ℚ)
    linarith
  · left
    have hc : (rx2 : ℚ) + 1 ≤ (qx1 : ℚ) := by exact_mod_cast h
    simp only []
    have h1 := min_le_right (qx2 : ℚ) (rx2 : ℚ)
    have h2 := le_max_left (qx1 : ℚ) (rx1 : ℚ)
    linarith
  · right
    have hc : (qy2 : ℚ) + 1 ≤ (ry1 : ℚ) := by exact_mod_cast h
    simp only []
    have h1 := min_le_left (qy2 : ℚ) (ry2 : ℚ)
    have h2 := le_max_right (qy1 : ℚ) (ry1 : ℚ)
    linarith
  · right
    have hc : (ry2 : ℚ) + 1 ≤ (qy1 : ℚ) := by exact_mod_cast h
    simp only []
    have h1 := min_le_right (qy2 : ℚ) (ry2 : ℚ)
    have h2 := le_max_left (qy1 : ℚ) (ry1 : ℚ)
    linarith

/-- Witness for C6: boxes `(0,0,1,1)` and `(3,0,4,1)` are disjoint on the
x-axis and their overlap entry is 0. -/
theorem calc_overlap_disjoint_zero_witness :
    entry (calc_overlap [⟨0, 0, 1, 1⟩] [⟨3, 0, 4, 1⟩]) 0 0 = 0 :=
  calc_overlap_disjoint_zero [⟨0, 0, 1, 1⟩] [⟨3, 0, 4, 1⟩] 0 0
    0 0 1 1 3 0 4 1 (by norm_num) (by norm_num)
    (by constructor <;> norm_num) (by constructor <;> norm_num)
    (by left; norm_num)

/-- Claim C7: on well-formed boxes, `calc_overlap` returns a dense matrix
of shape `(n_query, n_ref)` with every entry in the closed interval
`[0, 1]`. -/
theorem calc_overlap_shape_range (query_boxes ref_boxes : List Box)
    (hq : ∀ b ∈ query_boxes, wellFormed b) (hr : ∀ b ∈ ref_boxes, wellFormed b) :
    (calc_overlap query_boxes ref_boxes).length = query_boxes.length ∧
    (∀ row ∈ calc_overlap query_boxes ref_boxes, row.length = ref_boxes.length) ∧
    (∀ row ∈ calc_overlap query_boxes ref_boxes, ∀ x ∈ row, 0 ≤ x ∧ x ≤ 1) := by
  refine ⟨by simp [calc_overlap], ?_, ?_⟩
  · intro row hrow
    simp only [calc_overlap, List.mem_map] at hrow
    obtain ⟨q, _, hrow⟩ := hrow
    simp [← hrow]
  · intro row hrow x hx
    simp only [calc_overlap, List.mem_map] at hrow
    obtain ⟨q, hqmem, hrow⟩ := hrow
    rw [← hrow] at hx
    simp only [List.mem_map] at hx
    obtain ⟨r, hrmem, hx⟩ := hx
    rw [← hx]
    exact iou_bounds q r (hq q hqmem) (hr r hrmem)

/-- Witness for C7 with one query box and one reference box. -/
theorem calc_overlap_shape_range_witness :
    (calc_overlap [⟨0, 0, 1, 1⟩] [⟨0, 0, 2, 2⟩]).length = 1 ∧
    (∀ row ∈ calc_overlap [⟨0, 0, 1, 1⟩] [⟨0, 0, 2, 2⟩], row.length = 1) ∧
    (∀ row ∈ calc_overlap [⟨0, 0, 1, 1⟩] [⟨0, 0, 2, 2⟩], ∀ x ∈ row, 0 ≤ x ∧ x ≤ 1) := by
  have h := calc_overlap_shape_range [⟨0, 0, 1, 1⟩] [⟨0, 0, 2, 2⟩]
    (by intro b hb; simp at hb; rw [hb]; constructor <;> norm_num)
    (by intro b hb; simp at hb; rw [hb]; constructor <;> norm_num)
  simpa using h

/-! ### Lemmas about the anchor matcher -/

lemma getD_map_range {α : Type} (n : ℕ) (f : ℕ → α) (i : ℕ) (d : α) (h : i < n) :
    ((List.range n).map f).getD i d = f i := by
  rw [List.getD_eq_getElem?_getD, List.getElem?_map, List.getElem?_range h]
  rfl

lemma length_setOnes (m : List ℤ) (idxs : List ℕ) :
    (setOnes m idxs).length = m.length := by
  induction idxs generalizing m with
  | nil => rfl
  | cons j js ih =>
    have hstep : setOnes m (j :: js) = setOnes (m.set j 1) js := rfl
    rw [hstep, ih, List.length_set]

lemma getD_setOnes (m : List ℤ) (idxs : List ℕ) (i : ℕ) (h : i < m.length) :
    (setOnes m idxs).getD i (-1) = if i ∈ idxs then 1 else m.getD i (-1) := by
  induction idxs generalizing m with
  | nil => simp [setOnes]
  | cons j js ih =>
    have hstep : setOnes m (j :: js) = setOnes (m.set j 1) js := rfl
    rw [hstep, ih (m.set j 1) (by simpa using h)]
    by_cases hmem : i ∈ js
    · rw [if_pos hmem, if_pos (List.mem_cons_of_mem j hmem)]
    · by_cases hji : j = i
      · subst hji
        have hset : (m.set j 1).getD j (-1) = 1 := by
          rw [List.getD_eq_getElem?_getD, List.getElem?_set]
          simp [h]
        rw [if_neg hmem, if_pos (List.mem_cons_self j js), hset]
      · have hset : (m.set j 1).getD i (-1) = m.getD i (-1) := by
          rw [List.getD_eq_getElem?_getD, List.getElem?_set, if_neg hji,
            ← List.getD_eq_getElem?_getD]
        have hnot : i ∉ j :: js := by
          intro hc
          rcases List.mem_cons.1 hc with hc | hc
          · exact hji hc.symm
          · exact hmem hc
        rw [if_neg hmem, if_neg hnot, hset]

lemma length_matchStep2 (m : List ℤ) (x : List ℚ) (hi : ℚ) :
    (matchStep2 m x hi).length = m.length := by
  simp [matchStep2]

lemma length_matchStep3 (m : List ℤ) (x : List ℚ) (lo : ℚ) :
    (matchStep3 m x lo).length = m.length := by
  simp [matchStep3]

lemma getD_matchStep2 (m : List ℤ) (x : List ℚ) (hi : ℚ) (i : ℕ) (h : i < m.length) :
    (matchStep2 m x hi).getD i (-1) =
      if hi < x.getD i 0 then 1 else m.getD i (-1) := by
  unfold matchStep2
  exact getD_map_range _ _ _ _ h

lemma getD_matchStep3 (m : List ℤ) (x : List ℚ) (lo : ℚ) (i : ℕ) (h : i < m.length) :
    (matchStep3 m x lo).getD i (-1) =
      if x.getD i 0 < lo then 0 else m.getD i (-1) := by
  unfold matchStep3
  exact getD_map_range _ _ _ _ h

lemma getD_matchInit (n i : ℕ) (h : i < n) : (matchInit n).getD i (-1) = -1 := by
  simp [matchInit, List.getD_eq_getElem?_getD, List.getElem?_replicate, h]

lemma length_calc_overlap (query_boxes ref_boxes : List Box) :
    (calc_overlap query_boxes ref_boxes).length = query_boxes.length := by
  simp [calc_overlap]

lemma getD_max_ious (anchors gt_boxes : List Box) (rate : ℚ) (i : ℕ)
    (h : i < anchors.length) :
    ((calc_overlap anchors (gt_boxes.map (scaleBox rate))).map listMaxD).getD i 0 =
      rowMaxIou anchors gt_boxes rate i := by
  have hlen : i < (calc_overlap anchors (gt_boxes.map (scaleBox rate))).length := by
    rw [length_calc_overlap]; exact h
  unfold rowMaxIou
  rw [List.getD_eq_getElem?_getD, List.getElem?_map, List.getElem?_eq_getElem hlen,
    List.getD_eq_getElem?_getD, List.getElem?_eq_getElem hlen]
  rfl

lemma argmaxAux_lt (xs : List ℚ) (bv : ℚ) (i best : ℕ) (h : best < i) :
    argmaxAux xs bv i best < i + xs.length := by
  induction xs generalizing bv i best with
  | nil => simpa [argmaxAux] using h
  | cons x xs ih =>
    simp only [argmaxAux]
    split
    · have := ih x (i + 1) i (Nat.lt_succ_self i)
      simp only [List.length_cons]
      omega
    · have := ih bv (i + 1) best (by omega)
      simp only [List.length_cons]
      omega

lemma argmaxFirst_lt_length (l : List ℚ) (h : l ≠ []) : argmaxFirst l < l.length := by
  cases l with
  | nil => exact absurd rfl h
  | cons x xs =>
    have := argmaxAux_lt xs x 1 0 Nat.zero_lt_one
    simp only [argmaxFirst, List.length_cons]
    omega

lemma getD_matchLabels (anchors gt_boxes : List Box) (rate hi lo : ℚ) (i : ℕ)
    (h : i < anchors.length) :
    (matchLabels anchors gt_boxes rate hi lo).getD i (-1) =
      if rowMaxIou anchors gt_boxes rate i < lo then 0
      else if hi < rowMaxIou anchors gt_boxes rate i then 1
      else if i ∈ (List.range gt_boxes.length).map (bestAnchorForGt anchors gt_boxes rate)
        then 1 else -1 := by
  have l1 : (matchInit anchors.length).length = anchors.length := by simp [matchInit]
  unfold matchLabels
  rw [getD_matchStep3 _ _ _ _ (by rw [length_matchStep2, length_setOnes, l1]; exact h)]
  rw [getD_max_ious _ _ _ _ h]
  rw [getD_matchStep2 _ _ _ _ (by rw [length_setOnes, l1]; exact h)]
  rw [getD_max_ious _ _ _ _ h]
  rw [getD_setOnes _ _ _ (by rw [l1]; exact h)]
  rw [getD_matchInit _ _ h]
  simp only [List.length_map]
  rfl

lemma mem_pos_iff (anchors gt_boxes : List Box) (rate hi lo : ℚ) (i : ℕ) :
    i ∈ (calc_anchor_match anchors gt_boxes rate hi lo).1 ↔
      i < anchors.length ∧
        (matchLabels anchors gt_boxes rate hi lo).getD i (-1) = 1 := by
  unfold calc_anchor_match
  simp [List.mem_filter, List.mem_range]

lemma mem_neg_iff (anchors gt_boxes : List Box) (rate hi lo : ℚ) (i : ℕ) :
    i ∈ (calc_anchor_match anchors gt_boxes rate hi lo).2.1 ↔
      i < anchors.length ∧
        (matchLabels anchors gt_boxes rate hi lo).getD i (-1) = 0 := by
  unfold calc_anchor_match
  simp [List.mem_filter, List.mem_range]

/-! ### Claim theorems: anchor matcher -/

/-- Claim C8: for a non-empty ground-truth set, the positive and negative
index sets returned by `calc_anchor_match` are disjoint: no anchor index
appears in both. -/
theorem calc_anchor_match_pos_neg_disjoint (anchors gt_boxes : List Box)
    (rate hi lo : ℚ) (_hne : gt_boxes ≠ []) (i : ℕ)
    (hpos : i ∈ (calc_anchor_match anchors gt_boxes rate hi lo).1) :
    i ∉ (calc_anchor_match anchors gt_boxes rate hi lo).2.1 := by
  intro hneg
  have h1 := ((mem_pos_iff anchors gt_boxes rate hi lo i).1 hpos).2
  have h2 := ((mem_neg_iff anchors gt_boxes rate hi lo i).1 hneg).2
  rw [h1] at h2
  norm_num at h2

/-- Witness for C8: one anchor exactly covering one ground-truth box; the
anchor is positive, hence not negative. -/
theorem calc_anchor_match_pos_neg_disjoint_witness :
    0 ∉ (calc_anchor_match [⟨0, 0, 4, 4⟩] [⟨0, 0, 4, 4⟩] 1 (7/10) (3/10)).2.1 :=
  calc_anchor_match_pos_neg_disjoint [⟨0, 0, 4, 4⟩] [⟨0, 0, 4, 4⟩] 1 (7/10) (3/10)
    (by simp) 0
    (by norm_num [calc_anchor_match, matchLabels, calc_overlap, iou, scaleBox,
      listMaxD, argmaxFirst, argmaxAux, column, matchInit, setOnes,
      matchStep2, matchStep3, List.range_succ, max_def, min_def])

/-- Claim C10: an anchor whose row-maximum IoU over the ground-truth boxes
is strictly below `match_thresh_lo` never appears in the positive index
set, even when it is the column-argmax for some ground-truth box: the
source performs the negative masked write last, so it overrides both
positive assignments. -/
theorem low_rowmax_never_positive (anchors gt_boxes : List Box)
    (rate hi lo : ℚ) (i : ℕ)
    (hlow : rowMaxIou anchors gt_boxes rate i < lo) :
    i ∉ (calc_anchor_match anchors gt_boxes rate hi lo).1 := by
  intro hmem
  obtain ⟨hn, hlab⟩ := (mem_pos_iff anchors gt_boxes rate hi lo i).1 hmem
  rw [getD_matchLabels anchors gt_boxes rate hi lo i hn, if_pos hlow] at hlab
  norm_num at hlab

/-- Witness for C10: a lone anchor far away from the only ground-truth
box (row-max IoU 0 < 0.3) is kept out of the positive set although it is
the column-argmax for that box. -/
theorem low_rowmax_never_positive_witness :
    0 ∉ (calc_anchor_match [⟨0, 0, 1, 1⟩] [⟨10, 10, 11, 11⟩] 1 (7/10) (3/10)).1 :=
  low_rowmax_never_positive [⟨0, 0, 1, 1⟩] [⟨10, 10, 11, 11⟩] 1 (7/10) (3/10) 0
    (by norm_num [rowMaxIou, calc_overlap, iou, scaleBox, listMaxD,
      max_def, min_def])

/-- Counterexample to claim C1 as stated: with a single anchor
`(0, 0, 1, 1)` and a single far-away ground-truth box `(10, 10, 11, 11)`
(downsample rate 1, default thresholds 0.7/0.3), anchor 0 is the
column-argmax (best match) for ground-truth box 0, yet the returned
positive index set is empty — so not every ground-truth box has an
anchor in the positive set, and the forced-positive label is not
threshold-independent. -/
theorem forced_positive_counterexample :
    bestAnchorForGt [⟨0, 0, 1, 1⟩] [⟨10, 10, 11, 11⟩] 1 0 = 0 ∧
    (calc_anchor_match [⟨0, 0, 1, 1⟩] [⟨10, 10, 11, 11⟩] 1 (7/10) (3/10)).1 = [] := by
  constructor
  · norm_num [bestAnchorForGt, column, calc_overlap, iou, scaleBox,
      argmaxFirst, argmaxAux, max_def, min_def]
  · norm_num [calc_anchor_match, matchLabels, calc_overlap, iou, scaleBox,
      listMaxD, argmaxFirst, argmaxAux, column, matchInit, setOnes,
      matchStep2, matchStep3, List.range_succ, max_def, min_def]

/-- Claim C1, amended: each anchor that is the column-argmax (highest
IoU) for some ground-truth box is labeled positive unless its own
row-maximum IoU is strictly below `match_thresh_lo`, in which case the
subsequent negative write overrides the forced-positive label.  Hence
every ground-truth box whose best anchor reaches at least
`match_thresh_lo` has at least one anchor in the positive set. -/
theorem best_anchor_positive_unless_low (anchors gt_boxes : List Box)
    (rate hi lo : ℚ) (hane : anchors ≠ []) (j : ℕ) (hj : j < gt_boxes.length)
    (hnotlow : ¬ rowMaxIou anchors gt_boxes rate
      (bestAnchorForGt anchors gt_boxes rate j) < lo) :
    bestAnchorForGt anchors gt_boxes rate j ∈
      (calc_anchor_match anchors gt_boxes rate hi lo).1 := by
  have hcol_len :
      (column (calc_overlap anchors (gt_boxes.map (scaleBox rate))) j).length =
        anchors.length := by
    simp [column, calc_overlap]
  have hcol_ne : column (calc_overlap anchors (gt_boxes.map (scaleBox rate))) j ≠ [] := by
    intro hc
    rw [hc] at hcol_len
    exact hane (List.length_eq_zero.1 hcol_len.symm)
  have hin : bestAnchorForGt anchors gt_boxes rate j < anchors.length := by
    rw [← hcol_len]
    exact argmaxFirst_lt_length _ hcol_ne
  rw [mem_pos_iff]
  refine ⟨hin, ?_⟩
  rw [getD_matchLabels anchors gt_boxes rate hi lo _ hin, if_neg hnotlow]
  by_cases hhi : hi < rowMaxIou anchors gt_boxes rate (bestAnchorForGt anchors gt_boxes rate j)
  · rw [if_pos hhi]
  · rw [if_neg hhi, if_pos (List.mem_map.2 ⟨j, List.mem_range.2 hj, rfl⟩)]

/-- Witness for the amended C1: one anchor exactly covering the only
ground-truth box (row-max IoU 1 ≥ 0.3); its column-argmax anchor is in
the positive set. -/
theorem best_anchor_positive_unless_low_witness :
    bestAnchorForGt [⟨0, 0, 4, 4⟩] [⟨0, 0, 4, 4⟩] 1 0 ∈
      (calc_anchor_match [⟨0, 0, 4, 4⟩] [⟨0, 0, 4, 4⟩] 1 (7/10) (3/10)).1 :=
  best_anchor_positive_unless_low [⟨0, 0, 4, 4⟩] [⟨0, 0, 4, 4⟩] 1 (7/10) (3/10)
    (by simp) 0 (by norm_num)
    (by norm_num [rowMaxIou, bestAnchorForGt, column, calc_overlap, iou,
      scaleBox, listMaxD, argmaxFirst, argmaxAux, max_def, min_def])

/-! ### Claim theorems: delta encoder and concrete scenario -/

/-- Claim C2 is refuted by the code (`torch.cat` of the four length-`N`
columns followed by a row-major `.view(N, 4)` interleaves entries for
`N > 1`): for any model of `torch.log` sending 1 to 0, on two identical
`2 × 2` base boxes whose references are shifted one unit along x
(first pair) and two units along y (second pair), `calc_delta` returns
rows `(1/2, 0, 0, 1)` and `(0, 0, 0, 0)` instead of the per-row targets
`(1/2, 0, 0, 0)` and `(0, 1, 0, 0)` demanded by the claim. -/
theorem calc_delta_row_layout (lg : ℚ → ℚ) (hlg : lg 1 = 0) :
    calc_delta lg [⟨0, 0, 2, 2⟩, ⟨0, 0, 2, 2⟩] [⟨1, 0, 3, 2⟩, ⟨0, 2, 2, 4⟩]
        ⟨1, 1, 1, 1⟩ =
      [⟨1/2, 0, 0, 1⟩, ⟨0, 0, 0, 0⟩] ∧
    ([⟨1/2, 0, 0, 1⟩, ⟨0, 0, 0, 0⟩] : List Box) ≠
      [⟨1/2, 0, 0, 0⟩, ⟨0, 1, 0, 0⟩] := by
  constructor
  · norm_num [calc_delta, List.range_succ, hlg]
  · intro hc
    simp only [List.cons.injEq, Box.mk.injEq] at hc
    exact absurd hc.1.2.2.2 (by norm_num)

/-- Witness for the C2 failing input with the constant-zero logarithm
model. -/
theorem calc_delta_row_layout_witness :
    calc_delta (fun _ => 0) [⟨0, 0, 2, 2⟩, ⟨0, 0, 2, 2⟩]
        [⟨1, 0, 3, 2⟩, ⟨0, 2, 2, 4⟩] ⟨1, 1, 1, 1⟩ =
      [⟨1/2, 0, 0, 1⟩, ⟨0, 0, 0, 0⟩] :=
  (calc_delta_row_layout (fun _ => 0) rfl).1

set_option maxHeartbeats 4000000 in
/-- Claim C9: with feature map `4 × 4`, downsample rate 1, scale `[4]`,
aspect `[1]`, stride 1 (and any model of `np.sqrt` with `sqrt 1 = 1`),
`generate_anchors` produces the 16 anchors of size `4 × 4` centered on
the grid cell centers; matching them against the single ground-truth box
`(0, 0, 4, 4)` (cell `(2, 2)`'s anchor, index 10) with default
thresholds yields positive set exactly `[10]`, and every other anchor
whose best IoU is below `0.3` lands in the negative set. -/
theorem concrete_4x4_scenario (sqrt : ℚ → ℚ) (hsqrt : sqrt 1 = 1) :
    generate_anchors sqrt (4, 4) 1 [4] [1] 1 = anchors4x4 ∧
    (calc_anchor_match anchors4x4 [⟨0, 0, 4, 4⟩] 1 (7/10) (3/10)).1 = [10] ∧
    (∀ i, i < 16 → i ≠ 10 →
      rowMaxIou anchors4x4 [⟨0, 0, 4, 4⟩] 1 i < 3/10 →
      i ∈ (calc_anchor_match anchors4x4 [⟨0, 0, 4, 4⟩] 1 (7/10) (3/10)).2.1) := by
  have hmatch : calc_anchor_match anchors4x4 [⟨0, 0, 4, 4⟩] 1 (7/10) (3/10) =
      ([10], [0],
       [⟨0, 0, 4, 4⟩, ⟨0, 0, 4, 4⟩, ⟨0, 0, 4, 4⟩, ⟨0, 0, 4, 4⟩,
        ⟨0, 0, 4, 4⟩, ⟨0, 0, 4, 4⟩, ⟨0, 0, 4, 4⟩, ⟨0, 0, 4, 4⟩,
        ⟨0, 0, 4, 4⟩, ⟨0, 0, 4, 4⟩, ⟨0, 0, 4, 4⟩, ⟨0, 0, 4, 4⟩,
        ⟨0, 0, 4, 4⟩, ⟨0, 0, 4, 4⟩, ⟨0, 0, 4, 4⟩, ⟨0, 0, 4, 4⟩]) := by
    norm_num [anchors4x4, calc_anchor_match, matchLabels, calc_overlap, iou,
      scaleBox, listMaxD, argmaxFirst, argmaxAux, column, matchInit, setOnes,
      matchStep2, matchStep3, List.range_succ, max_def, min_def]
  refine ⟨?_, by rw [hmatch], ?_⟩
  · norm_num [generate_anchors, arange, anchors4x4, List.range_succ, hsqrt]
  · intro i h16 hne hlow
    rw [hmatch]
    interval_cases i
    all_goals try exact absurd rfl hne
    all_goals try simp
    all_goals exact absurd hlow (by
      norm_num [rowMaxIou, anchors4x4, calc_overlap, iou, scaleBox,
        listMaxD, List.getD, max_def, min_def])

/-- Witness for C9 with the identity function standing in for `np.sqrt`
(it sends 1 to 1, the only value the scenario takes a square root of). -/
theorem concrete_4x4_scenario_witness :
    generate_anchors (fun x => x) (4, 4) 1 [4] [1] 1 = anchors4x4 ∧
    (calc_anchor_match anchors4x4 [⟨0, 0, 4, 4⟩] 1 (7/10) (3/10)).1 = [10] :=
  ⟨(concrete_4x4_scenario (fun x => x) rfl).1,
   (concrete_4x4_scenario (fun x => x) rfl).2.1⟩

/-! ### Claim theorem: anchor generator box formula -/

lemma index_lt_mul {a b m n : ℕ} (ha : a < m) (hb : b < n) : a * n + b < m * n :=
  calc a * n + b < a * n + n := by omega
    _ = (a + 1) * n := by ring
    _ ≤ m * n := Nat.mul_le_mul_right n ha

lemma getElem?_flatMap_map_of_some {α β γ : Type} (l : List α) (m : List β)
    (g : α → β → γ) (a b : ℕ) (xa : α) (xb : β)
    (hxa : l[a]? = some xa) (hxb : m[b]? = some xb) :
    (l.flatMap (fun x => m.map (g x)))[a * m.length + b]? = some (g xa xb) := by
  obtain ⟨ha, hva⟩ := List.getElem?_eq_some_iff.1 hxa
  obtain ⟨hb, hvb⟩ := List.getElem?_eq_some_iff.1 hxb
  rw [getElem?_flatMap_map l m g a b ha hb, hva, hvb]

lemma shifts_getElem? (stop stride : ℕ) (rate : ℚ) (i : ℕ)
    (h : i < (stop + stride - 1) / stride) :
    ((arange stop stride).map (fun n : ℕ => (n : ℚ) / rate))[i]? =
      some (((i * stride : ℕ) : ℚ) / rate) := by
  rw [List.getElem?_map, arange_getElem? stop stride i h]
  rfl

/-- Claim C4: the box that `generate_anchors` emits at position
`(i * nX + j) * k + (ri * nS + si)` — shift positions in the outer index
(`y` outer, `x` inner), scale/ratio pairs in the inner index (ratio
outer, scale inner), with `nX = ⌈W / stride⌉` and
`k = len(ratios) * len(scales)` — is exactly
`center ± 0.5 * (height, width)` in `(y1, x1, y2, x2)` corner order,
where the center is the strided grid position rescaled by
`1 / downsample_rate`, `height = scale / sqrt ratio` and
`width = scale * sqrt ratio`. -/
theorem generate_anchors_box_formula (sqrt : ℚ → ℚ) (H W : ℕ) (rate : ℚ)
    (scales ratioList : List ℚ) (stride : ℕ) (i j ri si : ℕ)
    (hi : i < (H + stride - 1) / stride) (hj : j < (W + stride - 1) / stride)
    (hri : ri < ratioList.length) (hsi : si < scales.length) :
    (generate_anchors sqrt (H, W) rate scales ratioList stride)[
        (i * ((W + stride - 1) / stride) + j) * (ratioList.length * scales.length) +
          (ri * scales.length + si)]? =
      some ⟨((i * stride : ℕ) : ℚ) / rate - 1/2 * (scales[si] / sqrt ratioList[ri]),
            ((j * stride : ℕ) : ℚ) / rate - 1/2 * (scales[si] * sqrt ratioList[ri]),
            ((i * stride : ℕ) : ℚ) / rate + 1/2 * (scales[si] / sqrt ratioList[ri]),
            ((j * stride : ℕ) : ℚ) / rate + 1/2 * (scales[si] * sqrt ratioList[ri])⟩ := by
  dsimp only [generate_anchors]
  have hsxlen : ((arange W stride).map (fun n : ℕ => (n : ℚ) / rate)).length
      = (W + stride - 1) / stride := by rw [List.length_map, arange_length]
  have hplen : (ratioList.flatMap (fun r => scales.map (fun s => (s, r)))).length
      = ratioList.length * scales.length :=
    length_flatMap_const _ _ scales.length (fun r _ => List.length_map _ _)
  have hhwlen : ((ratioList.flatMap (fun r => scales.map (fun s => (s, r)))).map
      (fun p => (p.1 / sqrt p.2, p.1 * sqrt p.2))).length
      = ratioList.length * scales.length := by
    rw [List.length_map, hplen]
  have hcent? := getElem?_flatMap_map_of_some
    ((arange H stride).map (fun n : ℕ => (n : ℚ) / rate))
    ((arange W stride).map (fun n : ℕ => (n : ℚ) / rate))
    (fun cy cx => (cy, cx)) i j _ _
    (shifts_getElem? H stride rate i hi) (shifts_getElem? W stride rate j hj)
  rw [hsxlen] at hcent?
  have hpair? := getElem?_flatMap_map ratioList scales (fun r s => (s, r)) ri si hri hsi
  have hhw? : ((ratioList.flatMap (fun r => scales.map (fun s => (s, r)))).map
      (fun p => (p.1 / sqrt p.2, p.1 * sqrt p.2)))[ri * scales.length + si]? =
      some (scales[si] / sqrt ratioList[ri], scales[si] * sqrt ratioList[ri]) := by
    rw [List.getElem?_map, hpair?]
    rfl
  rw [← hhwlen]
  exact getElem?_flatMap_map_of_some _ _ _ _ _ _ _ hcent? hhw?

/-- Witness for C4: a `2 × 2` feature map with scales `[2, 3]` and
aspects `[1, 4]` (the identity standing in for `np.sqrt`); the box at
flat index 10 (shift `(1, 0)`, pair `(scale 2, ratio 4)`) is
`(3/4, -4, 5/4, 4)`. -/
theorem generate_anchors_box_formula_witness :
    (generate_anchors (fun x => x) (2, 2) 1 [2, 3] [1, 4] 1)[10]? =
      some ⟨3/4, -4, 5/4, 4⟩ := by
  have h := generate_anchors_box_formula (fun x => x) 2 2 1 [2, 3] [1, 4] 1
    1 0 1 0 (by norm_num) (by norm_num) (by norm_num) (by norm_num)
  norm_num at h
  convert h using 2

end GluonDetection
